import Mathlib

/-!
Verification development for the babble ingestion/classification/broadcast
pipeline (Go sources: internal/events/event.go, internal/sessions,
internal/hub).  Each Go function relevant to the checked properties is
embedded as a Lean definition; stateful components (the watch registry,
the hub subscriber set) are embedded as explicit state-passing functions
with a reachability relation standing for interleaved executions of the
mutex-protected critical sections.
-/

namespace Babble

/-- A structural JSON value, standing for the raw bytes held by Go
`json.RawMessage` fields once decoded.  An object is a field list; a Go
`map[string]json.RawMessage` lookup corresponds to last-wins lookup on
that list. -/
inductive JsonVal where
  | null : JsonVal
  | bool : Bool → JsonVal
  | num : Int → JsonVal
  | str : String → JsonVal
  | arr : List JsonVal → JsonVal
  | obj : List (String × JsonVal) → JsonVal

/-- Lookup of key `k` in a decoded JSON object, mirroring Go map semantics
(duplicate keys: the last occurrence wins). -/
def objLookup (fields : List (String × JsonVal)) (k : String) : Option JsonVal :=
  ((fields.filter (fun f => f.1 == k)).getLast?).map (fun f => f.2)

-- ---------------------------------------------------------------------------
-- internal/events/event.go
-- ---------------------------------------------------------------------------

/-- Go `type Category string`: categories are strings in the source. -/
abbrev Category := String

def CategoryAmbient : Category := "ambient"
def CategoryAction : Category := "action"
def CategoryRead : Category := "read"
def CategoryWrite : Category := "write"
def CategoryNetwork : Category := "network"
def CategorySuccess : Category := "success"
def CategoryWarn : Category := "warn"
def CategoryError : Category := "error"
def CategoryMeta : Category := "meta"

/-- Struct `BabbleEvent`: the normalised representation of a single log line. -/
structure BabbleEvent where
  session : String
  sessionId : String
  category : Category
  event : String
  detail : String
  timestamp : String
  isSubagent : Bool
deriving DecidableEq, Repr

/-- Struct `rawProgressData`: the data object inside progress events.  `message` is
`some v` exactly when the JSON key is present (Go: non-nil `json.RawMessage`). -/
structure RawProgressData where
  type : String
  message : Option JsonVal

/-- Struct `rawContent`: a single element of a message content array.  `input` is
`some v` when the `input` key is present (Go: non-nil `json.RawMessage`). -/
structure RawContent where
  type : String
  name : String
  input : Option JsonVal
  isError : Bool

/-- Struct `rawMessage`: the message field of assistant and user events. -/
structure RawMessage where
  role : String
  content : List RawContent

/-- Struct `rawLine`: the top-level envelope of every JSONL record.  Absent JSON
keys decode to Go zero values: empty strings, `none` for the pointers. -/
structure RawLine where
  type : String
  sessionId : String
  timestamp : String
  cwd : String
  message : Option RawMessage
  data : Option RawProgressData

/-- The `toolCategory` map literal from event.go, as an association list. -/
def toolCategoryTable : List (String × Category) :=
  [("Read", CategoryRead),
   ("Grep", CategoryRead),
   ("Glob", CategoryRead),
   ("Edit", CategoryWrite),
   ("Write", CategoryWrite),
   ("NotebookEdit", CategoryWrite),
   ("Bash", CategoryAction),
   ("WebFetch", CategoryNetwork),
   ("WebSearch", CategoryNetwork),
   ("Task", CategoryMeta),
   ("EnterPlanMode", CategoryMeta),
   ("ExitPlanMode", CategoryMeta),
   ("Skill", CategoryMeta),
   ("TodoWrite", CategoryMeta),
   ("TaskCreate", CategoryMeta),
   ("TaskUpdate", CategoryMeta),
   ("AskUserQuestion", CategoryWarn)]

/-- Go map lookup `toolCategory[name]` (keys are distinct, so first match
on the association list agrees with the map). -/
def toolCategory (name : String) : Option Category :=
  (toolCategoryTable.find? (fun p => p.1 == name)).map (fun p => p.2)

/-- The `toolDetailKey` map literal from event.go. -/
def toolDetailKeyTable : List (String × String) :=
  [("Read", "file_path"),
   ("Edit", "file_path"),
   ("Write", "file_path"),
   ("NotebookEdit", "notebook_path"),
   ("Grep", "pattern"),
   ("Glob", "pattern"),
   ("Bash", "command"),
   ("WebFetch", "url"),
   ("WebSearch", "query"),
   ("Task", "description")]

/-- Go map lookup `toolDetailKey[name]`. -/
def toolDetailKey (name : String) : Option String :=
  (toolDetailKeyTable.find? (fun p => p.1 == name)).map (fun p => p.2)

/-- The `skippedTypes` set from event.go. -/
def skippedTypes (t : String) : Bool :=
  t == "file-history-snapshot"

/-- Function `truncate` from event.go: truncate `s` to at most `maxLen` runes
(Go runes = Lean `Char` = Unicode scalar values). -/
def truncate (s : String) (maxLen : Nat) : String :=
  let runes := s.toList
  if runes.length ≤ maxLen then s
  else String.mk (runes.take maxLen)

/-- Go `strings.TrimRight(cwd, "/")`: drop trailing slash characters. -/
def trimRightSlash (s : String) : String :=
  String.mk ((s.toList.reverse.dropWhile (fun c => c = '/')).reverse)

/-- Go `path.Base` (Unix path semantics), used by `SessionNameFromCwd`. -/
def pathBase (p : String) : String :=
  if p = "" then "."
  else
    let t := (p.toList.reverse.dropWhile (fun c => c = '/')).reverse
    let lastRev := t.reverse.takeWhile (fun c => c ≠ '/')
    if lastRev.isEmpty then "/" else String.mk lastRev.reverse

/-- Function `SessionNameFromCwd` from event.go. -/
def SessionNameFromCwd (cwd : String) : String :=
  let cleaned := trimRightSlash cwd
  if cleaned = "" then cwd else pathBase cleaned

/-- Function `classifyToolUse` from event.go: maps a tool_use content block to
category + detail on the event under construction. -/
def classifyToolUse (ev : BabbleEvent) (block : RawContent) : BabbleEvent :=
  let ev := { ev with event := block.name }
  let ev :=
    match toolCategory block.name with
    | some cat => { ev with category := cat }
    | none => { ev with category := CategoryMeta }
  match toolDetailKey block.name with
  | none => ev
  | some key =>
    match block.input with
    | some (JsonVal.obj fields) =>
      match objLookup fields key with
      | some (JsonVal.str s) => { ev with detail := truncate s 80 }
      | _ => ev
    | _ => ev

/-- Function `parseAssistant` from event.go. -/
def parseAssistant (ev : BabbleEvent) (msg : Option RawMessage) : BabbleEvent :=
  match msg with
  | none => { ev with category := CategoryAmbient, event := "assistant" }
  | some m =>
    match m.content with
    | [] => { ev with category := CategoryAmbient, event := "assistant" }
    | first :: _ =>
      match m.content.find? (fun b => b.type == "tool_use") with
      | some block => classifyToolUse ev block
      | none =>
        if first.type = "thinking" then
          { ev with category := CategoryAmbient, event := "thinking" }
        else if first.type = "text" then
          { ev with category := CategoryAmbient, event := "text" }
        else
          { ev with category := CategoryAmbient, event := first.type }

/-- Function `parseUser` from event.go. -/
def parseUser (ev : BabbleEvent) (msg : Option RawMessage) : BabbleEvent :=
  match msg with
  | none => { ev with category := CategoryWarn, event := "user_input" }
  | some m =>
    match m.content with
    | [] => { ev with category := CategoryWarn, event := "user_input" }
    | _ :: _ =>
      match m.content.find? (fun b => b.type == "tool_result") with
      | some block =>
        if block.isError then
          { ev with event := "tool_result", category := CategoryError }
        else
          { ev with event := "tool_result", category := CategorySuccess }
      | none => { ev with category := CategoryWarn, event := "user_input" }

/-- The three outcomes of `ParseLine`: an event, `ErrSkipEvent`, or a JSON
unmarshal error. -/
inductive ParseOutcome where
  | event : BabbleEvent → ParseOutcome
  | skip : ParseOutcome
  | jsonError : ParseOutcome
deriving DecidableEq, Repr

/-- The event skeleton `ParseLine` builds before dispatching on the record
type (Go zero values for the fields the branches fill in). -/
def initEvent (raw : RawLine) : BabbleEvent :=
  { session := SessionNameFromCwd raw.cwd
    sessionId := raw.sessionId
    category := ""
    event := ""
    detail := ""
    timestamp := raw.timestamp
    isSubagent := false }

/-- Function `ParseLine` from event.go.  The input is the result of
`json.Unmarshal` on the line bytes: `none` when the bytes are not a
structurally valid envelope, `some raw` otherwise. -/
def ParseLine (x : Option RawLine) : ParseOutcome :=
  match x with
  | none => ParseOutcome.jsonError
  | some raw =>
    if skippedTypes raw.type then ParseOutcome.skip
    else
      let ev : BabbleEvent := initEvent raw
      if raw.type = "assistant" then
        ParseOutcome.event (parseAssistant ev raw.message)
      else if raw.type = "user" then
        ParseOutcome.event (parseUser ev raw.message)
      else if raw.type = "progress" then
        match raw.data with
        | some d =>
          if d.message.isSome then ParseOutcome.skip
          else
            ParseOutcome.event
              { ev with category := CategoryMeta, event := "progress",
                        detail := if d.type ≠ "" then truncate d.type 80 else ev.detail }
        | none =>
          ParseOutcome.event { ev with category := CategoryMeta, event := "progress" }
      else if raw.type = "system" then
        ParseOutcome.event { ev with category := CategoryMeta, event := "system" }
      else
        ParseOutcome.event { ev with category := CategoryMeta, event := raw.type }

-- ---------------------------------------------------------------------------
-- internal/sessions: the Tailer read loop (Manager.tail)
-- ---------------------------------------------------------------------------

/-- Go `strings.TrimRight(s, "\r\n")`: drop trailing carriage returns and
newlines, in any order. -/
def trimRightCRLF (s : String) : String :=
  String.mk ((s.toList.reverse.dropWhile (fun c => c = '\r' ∨ c = '\n')).reverse)

/-- What the Tailer does with one complete line (tail loop body after a
successful `ReadBytes`): nothing for a blank line or a skipped record, a
log for a parse error, an emitted event otherwise. -/
inductive LineOutcome where
  | emitted : BabbleEvent → LineOutcome
  | silent : LineOutcome
  | logged : LineOutcome
deriving DecidableEq, Repr

/-- The per-line body of `Manager.tail` (part_003 lines 322-342), with JSON
unmarshalling abstracted as `decode` (as in `ParseLine`).  A blank trimmed
line is dropped before the classifier runs; `ErrSkipEvent` is dropped
silently; other parse errors are logged; events are forwarded. -/
def tailProcessLine (decode : String → Option RawLine) (isSubagent : Bool)
    (line : String) : LineOutcome :=
  let trimmed := trimRightCRLF line
  if trimmed = "" then LineOutcome.silent
  else
    match ParseLine (decode trimmed) with
    | ParseOutcome.skip => LineOutcome.silent
    | ParseOutcome.jsonError => LineOutcome.logged
    | ParseOutcome.event ev => LineOutcome.emitted { ev with isSubagent := isSubagent }

/-- One round of the Tailer's read loop over a chunk of newly arrived bytes:
`feed carry chunk` returns the complete lines now available (each including
its terminating newline, as `bufio.Reader.ReadBytes` returns them) and the
partial line left at EOF, which `Manager.tail` preserves by resetting the
reader to `MultiReader(partial, f)` before suspending. -/
def feed : List Char → List Char → List (List Char) × List Char
  | carry, [] => ([], carry)
  | carry, c :: cs =>
    if c = '\n' then
      let r := feed [] cs
      ((carry ++ [c]) :: r.1, r.2)
    else feed (carry ++ [c]) cs

/-- The Tailer's read loop across successive write notifications: each
element of `chunks` is the data that arrived before one EOF, and the
carry-over buffer is threaded through exactly as `Manager.tail` does. -/
def tailRun : List Char → List (List Char) → List (List Char) × List Char
  | carry, [] => ([], carry)
  | carry, chunk :: chunks =>
    let r := feed carry chunk
    let rest := tailRun r.2 chunks
    (r.1 ++ rest.1, rest.2)

-- ---------------------------------------------------------------------------
-- internal/sessions: the WatchRegistry (Manager.startTailing / Manager.tail)
-- ---------------------------------------------------------------------------

/-- The mutex-protected state of the Manager: the `tailing` map keys
(registry entries) together with the multiset of live tailer goroutines,
each identified by the path it tails. -/
structure RegState where
  tailing : List String
  live : List String
deriving DecidableEq, Repr

/-- Method `Manager.startTailing` (part_003 lines 245-258): compare-and-insert.
If an entry for `p` exists the call returns immediately; otherwise the
entry is inserted and a new tailer goroutine for `p` is spawned. -/
def startTailing (s : RegState) (p : String) : RegState :=
  if p ∈ s.tailing then s
  else { tailing := p :: s.tailing, live := p :: s.live }

/-- The deferred exit handler of `Manager.tail` (part_003 lines 279-283):
the exiting tailer deletes its own registry entry and dies. -/
def tailExit (s : RegState) (p : String) : RegState :=
  { tailing := s.tailing.erase p, live := s.live.erase p }

/-- Registry states reachable from the initial empty Manager state by any
interleaving of the two mutex-protected critical sections: a
`startTailing` call for any path, and the exit of any live tailer. -/
inductive RegReach : RegState → Prop where
  | init : RegReach ⟨[], []⟩
  | start (s : RegState) (p : String) : RegReach s → RegReach (startTailing s p)
  | exit (s : RegState) (p : String) : RegReach s → p ∈ s.live → RegReach (tailExit s p)

-- ---------------------------------------------------------------------------
-- internal/sessions: directory-creation handling (Manager.handleFSEvent)
-- ---------------------------------------------------------------------------

/-- Go `path/filepath.Clean` on Unix paths, via its lexical rules: drop
empty and `.` components, resolve `..` against a preceding component, and
drop `..` at the root. -/
def cleanAux (rooted : Bool) : List (List Char) → List (List Char) → List (List Char)
  | out, [] => out.reverse
  | out, c :: cs =>
    if c = [] ∨ c = ['.'] then cleanAux rooted out cs
    else if c = ['.', '.'] then
      match out with
      | [] => if rooted then cleanAux rooted [] cs else cleanAux rooted [c] cs
      | o :: os =>
        if o = ['.', '.'] then cleanAux rooted (c :: o :: os) cs
        else cleanAux rooted os cs
    else cleanAux rooted (c :: out) cs

/-- Split a character list into slash-separated components. -/
def splitComps (acc : List Char) : List Char → List (List Char)
  | [] => [acc.reverse]
  | c :: cs => if c = '/' then acc.reverse :: splitComps [] cs else splitComps (c :: acc) cs

/-- Go `filepath.Clean` (Unix). -/
def fpClean (p : String) : String :=
  let cs := p.toList
  let rooted := match cs with
    | '/' :: _ => true
    | _ => false
  let comps := cleanAux rooted [] (splitComps [] cs)
  if rooted then String.mk ('/' :: List.intercalate ['/'] comps)
  else if comps = [] then "."
  else String.mk (List.intercalate ['/'] comps)

/-- Go `filepath.Dir` (Unix): everything up to and including the final
separator, cleaned; `.` when there is no separator. -/
def fpDir (p : String) : String :=
  let pref := (p.toList.reverse.dropWhile (fun c => c ≠ '/')).reverse
  fpClean (String.mk pref)

/-- Go `filepath.Base` on Unix agrees with `path.Base`. -/
def fpBase (p : String) : String := pathBase p

/-- Method `Manager.watchDirBase` (part_003 lines 237-239). -/
def watchDirBase (watchPath : String) : String := fpBase watchPath

/-- The role `Manager.handleFSEvent` assigns to a newly created directory. -/
inductive DirRole where
  | subagentDir : DirRole
  | projectDir : DirRole
  | sessionDir : DirRole
deriving DecidableEq, Repr

/-- The directory-creation branch of `Manager.handleFSEvent` (part_003
lines 202-219): `subagentDir` = watch it and tail its files (seekEnd
false); `projectDir` = `watchProjectDir` with seekEnd false; `sessionDir`
= watch it and check for a `subagents` subdirectory. -/
def dirCreateRole (watchPath p : String) : DirRole :=
  if fpBase p = "subagents" then DirRole.subagentDir
  else if fpBase (fpDir p) = watchDirBase watchPath then DirRole.projectDir
  else DirRole.sessionDir

-- ---------------------------------------------------------------------------
-- internal/hub: Hub.Run / Hub.broadcast
-- ---------------------------------------------------------------------------

/-- A hub subscriber: the connection handle (its identity) together with
the outcome `WriteMessage` would have for the current frame. -/
structure Subscriber where
  id : Nat
  writeOk : Bool
deriving DecidableEq, Repr

/-- The outcome of one `Hub.broadcast` call (part_000 lines 124-135):
the clients still in the set afterwards, the clients whose connection was
closed and removed, the clients that received the frame, and the clients
on which a write was attempted, in order. -/
structure BroadcastResult where
  remaining : List Subscriber
  closed : List Subscriber
  delivered : List Subscriber
  attempted : List Subscriber
deriving DecidableEq, Repr

/-- Method `Hub.broadcast`: iterate over the subscriber set; attempt one write
per subscriber; on failure close the connection and delete the entry. -/
def broadcast : List Subscriber → BroadcastResult
  | [] => ⟨[], [], [], []⟩
  | s :: rest =>
    let r := broadcast rest
    if s.writeOk then ⟨s :: r.remaining, r.closed, s :: r.delivered, s :: r.attempted⟩
    else ⟨r.remaining, s :: r.closed, r.delivered, s :: r.attempted⟩

/-- One iteration of `Hub.Run` (part_000 lines 111-120) for a single event:
`payload` is the result of `json.Marshal` (`none` = serialization error).
On error the event is dropped with a log and no write is attempted; else
the frame is broadcast. -/
def hubRunStep (clients : List Subscriber) (payload : Option String) : BroadcastResult :=
  match payload with
  | none => ⟨clients, [], [], []⟩
  | some _ => broadcast clients

-- ---------------------------------------------------------------------------
-- Spec-side definitions, written from the words of spec.md for comparison
-- against the embedded code.
-- ---------------------------------------------------------------------------

/-- The spec's frozen tool-name table (spec.md section 4.1), row by row:
Read, Grep, Glob map to read; Edit, Write, NotebookEdit to write; Bash to
action; WebFetch, WebSearch to network; Task, EnterPlanMode, ExitPlanMode,
Skill, TodoWrite, TaskCreate, TaskUpdate to meta; AskUserQuestion to warn;
unknown tool names map to category meta. -/
def specToolCategoryOf (n : String) : Category :=
  if n = "Read" then "read"
  else if n = "Grep" then "read"
  else if n = "Glob" then "read"
  else if n = "Edit" then "write"
  else if n = "Write" then "write"
  else if n = "NotebookEdit" then "write"
  else if n = "Bash" then "action"
  else if n = "WebFetch" then "network"
  else if n = "WebSearch" then "network"
  else if n = "Task" then "meta"
  else if n = "EnterPlanMode" then "meta"
  else if n = "ExitPlanMode" then "meta"
  else if n = "Skill" then "meta"
  else if n = "TodoWrite" then "meta"
  else if n = "TaskCreate" then "meta"
  else if n = "TaskUpdate" then "meta"
  else if n = "AskUserQuestion" then "warn"
  else "meta"

/-- The spec's detail-source-key column: Read maps to file_path, Grep and
Glob to pattern, Edit and Write to file_path, NotebookEdit to
notebook_path, Bash to command, WebFetch to url, WebSearch to query, Task
to description; the other tools have no detail key. -/
def specDetailKeyOf (n : String) : Option String :=
  if n = "Read" then some "file_path"
  else if n = "Grep" then some "pattern"
  else if n = "Glob" then some "pattern"
  else if n = "Edit" then some "file_path"
  else if n = "Write" then some "file_path"
  else if n = "NotebookEdit" then some "notebook_path"
  else if n = "Bash" then some "command"
  else if n = "WebFetch" then some "url"
  else if n = "WebSearch" then some "query"
  else if n = "Task" then some "description"
  else none

/-- The spec's detail rule for a tool_use block: the string value found in
the input object at the tool's detail key, truncated to 80 Unicode scalar
values, and empty when there is no detail key, the input or the key is
absent, or the value there is not a string. -/
def specDetailOf (b : RawContent) : String :=
  match specDetailKeyOf b.name with
  | none => ""
  | some key =>
    match b.input with
    | some (JsonVal.obj fields) =>
      match objLookup fields key with
      | some (JsonVal.str s) => truncate s 80
      | _ => ""
    | _ => ""

/-- The spec's rule for `type == user` records (spec.md section 4.1 rule 3):
the first tool_result element decides tool_result/error-or-success; every
other user record is a warn user_input. -/
def specUserOutcome (msg : Option RawMessage) : String × Category :=
  match msg with
  | none => ("user_input", CategoryWarn)
  | some m =>
    match m.content.find? (fun b => b.type == "tool_result") with
    | some blk => ("tool_result", if blk.isError then CategoryError else CategorySuccess)
    | none => ("user_input", CategoryWarn)

/-- The spec's SKIP condition: the type is in the fixed skip-set (only
file-history-snapshot) or the record is a progress record with a
(non-empty, hence present) data.message. -/
def specSkipCond (raw : RawLine) : Bool :=
  raw.type == "file-history-snapshot" ||
  (raw.type == "progress" &&
    (match raw.data with
     | some d => d.message.isSome
     | none => false))

/-- The closed category set of spec.md section 6, less the reserved value
init that the Classifier never produces. -/
def specCategories : List Category :=
  ["ambient", "action", "read", "write", "network", "success", "warn", "error", "meta"]

/-- The record types ParseLine treats specially; any other type is an
unknown kind. -/
def knownTypes : List String :=
  ["assistant", "user", "progress", "system", "file-history-snapshot"]

/-- spec.md section 4.3: a created directory sits directly under the watch
root when its parent directory is the (cleaned) root path. -/
def directlyUnder (root p : String) : Prop :=
  fpDir p = fpClean root

/-- Whether a ParseLine outcome is an event. -/
def ParseOutcome.isEvent : ParseOutcome → Bool
  | ParseOutcome.event _ => true
  | _ => false

-- Concrete sample records used to instantiate the theorems below.

def sampleToolBlock : RawContent :=
  ⟨"tool_use", "Edit", some (JsonVal.obj [("file_path", JsonVal.str "main.go")]), false⟩

def sampleAssistantLine : RawLine :=
  ⟨"assistant", "s1", "T", "/u/proj", some ⟨"assistant", [sampleToolBlock]⟩, none⟩

def sampleUserLine : RawLine :=
  ⟨"user", "s1", "T", "/u/proj", some ⟨"user", [⟨"tool_result", "", none, true⟩]⟩, none⟩

def sampleSystemLine : RawLine := ⟨"system", "s", "T", "/tmp", none, none⟩

def sampleSystemEvent : BabbleEvent := ⟨"tmp", "s", "meta", "system", "", "T", false⟩

def sampleUnknownLine : RawLine := ⟨"compact", "s", "T", "/tmp", none, none⟩

def sampleUnknownEvent : BabbleEvent := ⟨"tmp", "s", "meta", "compact", "", "T", false⟩

def sampleProgressRelay : RawLine :=
  ⟨"progress", "s", "T", "/tmp", none, some ⟨"", some (JsonVal.obj [])⟩⟩

-- ---------------------------------------------------------------------------
-- Table lemmas: the embedded Go lookup tables against the spec's tables.
-- ---------------------------------------------------------------------------

theorem toolCategory_total (n : String) :
    (toolCategory n).getD CategoryMeta = specToolCategoryOf n := by
  by_cases h1 : n = "Read"
  · subst h1; decide
  by_cases h2 : n = "Grep"
  · subst h2; decide
  by_cases h3 : n = "Glob"
  · subst h3; decide
  by_cases h4 : n = "Edit"
  · subst h4; decide
  by_cases h5 : n = "Write"
  · subst h5; decide
  by_cases h6 : n = "NotebookEdit"
  · subst h6; decide
  by_cases h7 : n = "Bash"
  · subst h7; decide
  by_cases h8 : n = "WebFetch"
  · subst h8; decide
  by_cases h9 : n = "WebSearch"
  · subst h9; decide
  by_cases h10 : n = "Task"
  · subst h10; decide
  by_cases h11 : n = "EnterPlanMode"
  · subst h11; decide
  by_cases h12 : n = "ExitPlanMode"
  · subst h12; decide
  by_cases h13 : n = "Skill"
  · subst h13; decide
  by_cases h14 : n = "TodoWrite"
  · subst h14; decide
  by_cases h15 : n = "TaskCreate"
  · subst h15; decide
  by_cases h16 : n = "TaskUpdate"
  · subst h16; decide
  by_cases h17 : n = "AskUserQuestion"
  · subst h17; decide
  have hn : toolCategoryTable.find? (fun p => p.1 == n) = none := by
    rw [List.find?_eq_none]
    intro x hx
    fin_cases hx <;> simp only [beq_iff_eq] <;> intro h <;> subst h <;> simp_all
  unfold toolCategory
  rw [hn]
  unfold specToolCategoryOf
  rw [if_neg h1, if_neg h2, if_neg h3, if_neg h4, if_neg h5, if_neg h6, if_neg h7,
      if_neg h8, if_neg h9, if_neg h10, if_neg h11, if_neg h12, if_neg h13,
      if_neg h14, if_neg h15, if_neg h16, if_neg h17]
  rfl

theorem toolDetailKey_total (n : String) :
    toolDetailKey n = specDetailKeyOf n := by
  by_cases h1 : n = "Read"
  · subst h1; decide
  by_cases h2 : n = "Grep"
  · subst h2; decide
  by_cases h3 : n = "Glob"
  · subst h3; decide
  by_cases h4 : n = "Edit"
  · subst h4; decide
  by_cases h5 : n = "Write"
  · subst h5; decide
  by_cases h6 : n = "NotebookEdit"
  · subst h6; decide
  by_cases h7 : n = "Bash"
  · subst h7; decide
  by_cases h8 : n = "WebFetch"
  · subst h8; decide
  by_cases h9 : n = "WebSearch"
  · subst h9; decide
  by_cases h10 : n = "Task"
  · subst h10; decide
  have hn : toolDetailKeyTable.find? (fun p => p.1 == n) = none := by
    rw [List.find?_eq_none]
    intro x hx
    fin_cases hx <;> simp only [beq_iff_eq] <;> intro h <;> subst h <;> simp_all
  unfold toolDetailKey
  rw [hn]
  unfold specDetailKeyOf
  rw [if_neg h1, if_neg h2, if_neg h3, if_neg h4, if_neg h5, if_neg h6, if_neg h7,
      if_neg h8, if_neg h9, if_neg h10]
  rfl

-- ---------------------------------------------------------------------------
-- Shape lemmas for the classifier.
-- ---------------------------------------------------------------------------

theorem classifyToolUse_event (ev : BabbleEvent) (b : RawContent) :
    (classifyToolUse ev b).event = b.name := by
  unfold classifyToolUse
  repeat' split
  all_goals rfl

theorem classifyToolUse_category (ev : BabbleEvent) (b : RawContent) :
    (classifyToolUse ev b).category = specToolCategoryOf b.name := by
  rw [← toolCategory_total b.name]
  unfold classifyToolUse
  repeat' split
  all_goals simp_all

theorem classifyToolUse_detail (ev : BabbleEvent) (b : RawContent) (h : ev.detail = "") :
    (classifyToolUse ev b).detail = specDetailOf b := by
  unfold classifyToolUse specDetailOf
  rw [← toolDetailKey_total b.name]
  repeat' split
  all_goals simp_all

theorem truncate_length_le (s : String) (m : Nat) : (truncate s m).length ≤ m := by
  unfold truncate
  dsimp only
  split
  · next h =>
      have hs : s.length = s.toList.length := rfl
      rw [hs]
      exact h
  · show (String.mk (s.toList.take m)).length ≤ m
    have h2 : (String.mk (s.toList.take m)).length = (s.toList.take m).length := rfl
    rw [h2, List.length_take]
    exact min_le_left _ _

theorem specDetailOf_length (b : RawContent) : (specDetailOf b).length ≤ 80 := by
  unfold specDetailOf
  repeat' split
  all_goals first
    | exact truncate_length_le _ 80
    | exact Nat.zero_le 80

theorem specToolCategoryOf_mem (n : String) : specToolCategoryOf n ∈ specCategories := by
  rw [← toolCategory_total n]
  unfold toolCategory
  cases hf : toolCategoryTable.find? (fun p => p.1 == n) with
  | none => decide
  | some p =>
    have hp := List.mem_of_find?_eq_some hf
    fin_cases hp <;> decide

theorem parseUser_shape (ev : BabbleEvent) (msg : Option RawMessage) :
    parseUser ev msg =
      { ev with event := (specUserOutcome msg).1, category := (specUserOutcome msg).2 } := by
  unfold parseUser specUserOutcome
  repeat' split
  all_goals simp_all

-- ---------------------------------------------------------------------------
-- Dispatch lemmas for ParseLine on the record type.
-- ---------------------------------------------------------------------------

theorem ParseLine_fhs (raw : RawLine) (h : raw.type = "file-history-snapshot") :
    ParseLine (some raw) = ParseOutcome.skip := by
  simp only [ParseLine, h]
  rfl

theorem ParseLine_assistant (raw : RawLine) (h : raw.type = "assistant") :
    ParseLine (some raw) =
      ParseOutcome.event (parseAssistant (initEvent raw) raw.message) := by
  simp only [ParseLine, h]
  rfl

theorem ParseLine_user (raw : RawLine) (h : raw.type = "user") :
    ParseLine (some raw) =
      ParseOutcome.event (parseUser (initEvent raw) raw.message) := by
  simp only [ParseLine, h]
  rfl

theorem ParseLine_progress (raw : RawLine) (h : raw.type = "progress") :
    ParseLine (some raw) =
      match raw.data with
      | some d =>
        if d.message.isSome then ParseOutcome.skip
        else
          ParseOutcome.event
            { initEvent raw with category := CategoryMeta, event := "progress",
                                 detail := if d.type ≠ "" then truncate d.type 80
                                           else (initEvent raw).detail }
      | none =>
        ParseOutcome.event { initEvent raw with category := CategoryMeta, event := "progress" } := by
  simp only [ParseLine, h]
  rfl

theorem ParseLine_system (raw : RawLine) (h : raw.type = "system") :
    ParseLine (some raw) =
      ParseOutcome.event { initEvent raw with category := CategoryMeta, event := "system" } := by
  simp only [ParseLine, h]
  rfl

theorem ParseLine_unknown (raw : RawLine) (h : raw.type ∉ knownTypes) :
    ParseLine (some raw) =
      ParseOutcome.event { initEvent raw with category := CategoryMeta, event := raw.type } := by
  simp only [knownTypes, List.mem_cons, List.not_mem_nil, or_false, not_or] at h
  obtain ⟨ha, hu, hp, hs, hf⟩ := h
  have hskip : skippedTypes raw.type = false := by
    simp [skippedTypes, hf]
  simp only [ParseLine, hskip, Bool.false_eq_true, if_false, if_neg ha, if_neg hu,
    if_neg hp, if_neg hs]

theorem parseUser_detail (ev : BabbleEvent) (msg : Option RawMessage) :
    (parseUser ev msg).detail = ev.detail := by
  rw [parseUser_shape]

theorem parseAssistant_detail_le (ev : BabbleEvent) (msg : Option RawMessage)
    (h : ev.detail = "") : (parseAssistant ev msg).detail.length ≤ 80 := by
  unfold parseAssistant
  repeat' split
  all_goals first
    | (rw [classifyToolUse_detail _ _ h]; exact specDetailOf_length _)
    | simp [h]

theorem parseAssistant_category_mem (ev : BabbleEvent) (msg : Option RawMessage) :
    (parseAssistant ev msg).category ∈ specCategories := by
  unfold parseAssistant
  repeat' split
  all_goals first
    | (rw [classifyToolUse_category]; exact specToolCategoryOf_mem _)
    | exact (by decide : CategoryAmbient ∈ specCategories)

theorem specUserOutcome_cat_mem (msg : Option RawMessage) :
    (specUserOutcome msg).2 ∈ specCategories := by
  unfold specUserOutcome
  repeat' split
  all_goals first
    | exact (by decide : CategoryWarn ∈ specCategories)
    | exact (by decide : CategoryError ∈ specCategories)
    | exact (by decide : CategorySuccess ∈ specCategories)

-- ---------------------------------------------------------------------------
-- Claim theorems.
-- ---------------------------------------------------------------------------

/-- Claim C1: for an assistant record whose content array contains a
tool_use block, the returned event's event field equals the tool name
exactly; its category is the frozen tool-name table's value, meta for
names outside the table; and its detail is the string value at the tool's
detail key in the input object, truncated to 80 Unicode scalar values,
empty when the key or the input is absent. -/
theorem C1_assistant_tool_use (raw : RawLine) (m : RawMessage) (blk : RawContent)
    (ht : raw.type = "assistant") (hm : raw.message = some m)
    (hb : m.content.find? (fun b => b.type == "tool_use") = some blk) :
    ParseLine (some raw) = ParseOutcome.event (classifyToolUse (initEvent raw) blk) ∧
    (classifyToolUse (initEvent raw) blk).event = blk.name ∧
    (classifyToolUse (initEvent raw) blk).category = specToolCategoryOf blk.name ∧
    (classifyToolUse (initEvent raw) blk).detail = specDetailOf blk := by
  refine ⟨?_, classifyToolUse_event _ _, classifyToolUse_category _ _,
    classifyToolUse_detail _ _ rfl⟩
  rw [ParseLine_assistant raw ht, hm]
  simp only [parseAssistant]
  cases hc : m.content with
  | nil => rw [hc] at hb; simp [List.find?] at hb
  | cons f rest =>
    rw [hc] at hb
    dsimp only
    rw [hb]

theorem C1_witness :
    ParseLine (some sampleAssistantLine) =
      ParseOutcome.event (classifyToolUse (initEvent sampleAssistantLine) sampleToolBlock) ∧
    (classifyToolUse (initEvent sampleAssistantLine) sampleToolBlock).event =
      sampleToolBlock.name ∧
    (classifyToolUse (initEvent sampleAssistantLine) sampleToolBlock).category =
      specToolCategoryOf sampleToolBlock.name ∧
    (classifyToolUse (initEvent sampleAssistantLine) sampleToolBlock).detail =
      specDetailOf sampleToolBlock :=
  C1_assistant_tool_use sampleAssistantLine ⟨"assistant", [sampleToolBlock]⟩ sampleToolBlock
    rfl rfl rfl

/-- Claim C2: a user record with a tool_result content element yields
event tool_result with category error when that element's is_error is
true and success otherwise; every other user record (absent message or
empty content included) yields category warn, event user_input. -/
theorem C2_user_classification (raw : RawLine) (ht : raw.type = "user") :
    ParseLine (some raw) = ParseOutcome.event (parseUser (initEvent raw) raw.message) ∧
    ((parseUser (initEvent raw) raw.message).event,
     (parseUser (initEvent raw) raw.message).category) = specUserOutcome raw.message := by
  refine ⟨ParseLine_user raw ht, ?_⟩
  rw [parseUser_shape]

theorem C2_witness :
    ParseLine (some sampleUserLine) =
      ParseOutcome.event (parseUser (initEvent sampleUserLine) sampleUserLine.message) ∧
    ((parseUser (initEvent sampleUserLine) sampleUserLine.message).event,
     (parseUser (initEvent sampleUserLine) sampleUserLine.message).category) =
      specUserOutcome sampleUserLine.message :=
  C2_user_classification sampleUserLine rfl

/-- Claim C3: ParseLine returns SKIP exactly for records whose type is in
the fixed skip-set (file-history-snapshot) or progress records with a
present data.message; it returns the error outcome only for bytes that do
not form a structurally valid envelope; every other parseable record
yields an event. -/
theorem C3_outcome_partition (raw : RawLine) :
    (ParseLine (some raw) = ParseOutcome.skip ↔ specSkipCond raw = true) ∧
    ParseLine none = ParseOutcome.jsonError ∧
    ParseLine (some raw) ≠ ParseOutcome.jsonError ∧
    (specSkipCond raw = false → (ParseLine (some raw)).isEvent = true) := by
  by_cases hf : raw.type = "file-history-snapshot"
  · have h1 := ParseLine_fhs raw hf
    have hsc : specSkipCond raw = true := by
      unfold specSkipCond
      rw [hf]
      rfl
    refine ⟨by rw [h1, hsc]; simp, rfl, by rw [h1]; simp, ?_⟩
    intro hcon
    rw [hsc] at hcon
    cases hcon
  have hb1 : (raw.type == "file-history-snapshot") = false := beq_eq_false_iff_ne.mpr hf
  by_cases ha : raw.type = "assistant"
  · have h1 := ParseLine_assistant raw ha
    have hsc : specSkipCond raw = false := by
      unfold specSkipCond
      rw [ha]
      rfl
    exact ⟨by rw [h1, hsc]; simp, rfl, by rw [h1]; simp, fun _ => by rw [h1]; rfl⟩
  by_cases hu : raw.type = "user"
  · have h1 := ParseLine_user raw hu
    have hsc : specSkipCond raw = false := by
      unfold specSkipCond
      rw [hu]
      rfl
    exact ⟨by rw [h1, hsc]; simp, rfl, by rw [h1]; simp, fun _ => by rw [h1]; rfl⟩
  by_cases hp : raw.type = "progress"
  · have h1 := ParseLine_progress raw hp
    cases hd : raw.data with
    | none =>
      rw [hd] at h1
      have hsc : specSkipCond raw = false := by
        unfold specSkipCond
        rw [hp, hd]
        rfl
      exact ⟨by rw [h1, hsc]; simp, rfl, by rw [h1]; simp, fun _ => by rw [h1]; rfl⟩
    | some d =>
      rw [hd] at h1
      dsimp only at h1
      cases hdm : d.message with
      | some j =>
        rw [hdm] at h1
        simp only [Option.isSome_some, if_true] at h1
        have hsc : specSkipCond raw = true := by
          unfold specSkipCond
          rw [hp, hd]
          dsimp only
          rw [hdm]
          rfl
        refine ⟨by rw [h1, hsc]; simp, rfl, by rw [h1]; simp, ?_⟩
        intro hcon
        rw [hsc] at hcon
        cases hcon
      | none =>
        rw [hdm] at h1
        simp only [Option.isSome_none, Bool.false_eq_true, if_false] at h1
        have hsc : specSkipCond raw = false := by
          unfold specSkipCond
          rw [hp, hd]
          dsimp only
          rw [hdm]
          rfl
        exact ⟨by rw [h1, hsc]; simp, rfl, by rw [h1]; simp, fun _ => by rw [h1]; rfl⟩
  by_cases hs : raw.type = "system"
  · have h1 := ParseLine_system raw hs
    have hsc : specSkipCond raw = false := by
      unfold specSkipCond
      rw [hs]
      rfl
    exact ⟨by rw [h1, hsc]; simp, rfl, by rw [h1]; simp, fun _ => by rw [h1]; rfl⟩
  · have hnk : raw.type ∉ knownTypes := by
      simp [knownTypes, ha, hu, hp, hs, hf]
    have h1 := ParseLine_unknown raw hnk
    have hb2 : (raw.type == "progress") = false := beq_eq_false_iff_ne.mpr hp
    have hsc : specSkipCond raw = false := by
      unfold specSkipCond
      rw [hb1, hb2]
      rfl
    exact ⟨by rw [h1, hsc]; simp, rfl, by rw [h1]; simp, fun _ => by rw [h1]; rfl⟩

theorem C3_witness :
    ParseLine (some sampleProgressRelay) = ParseOutcome.skip ∧
    (ParseLine (some sampleSystemLine)).isEvent = true :=
  ⟨(C3_outcome_partition sampleProgressRelay).1.mpr rfl,
   (C3_outcome_partition sampleSystemLine).2.2.2 rfl⟩

/-- Claim C4: every event the Classifier returns has a detail of at most
80 Unicode scalar values. -/
theorem C4_detail_bound (x : Option RawLine) (ev : BabbleEvent)
    (h : ParseLine x = ParseOutcome.event ev) : ev.detail.length ≤ 80 := by
  cases x with
  | none => exact ParseOutcome.noConfusion h
  | some raw =>
    by_cases hf : raw.type = "file-history-snapshot"
    · rw [ParseLine_fhs raw hf] at h
      exact ParseOutcome.noConfusion h
    by_cases ha : raw.type = "assistant"
    · rw [ParseLine_assistant raw ha] at h
      injection h with h2
      rw [← h2]
      exact parseAssistant_detail_le _ _ rfl
    by_cases hu : raw.type = "user"
    · rw [ParseLine_user raw hu] at h
      injection h with h2
      rw [← h2, parseUser_detail]
      exact Nat.zero_le 80
    by_cases hp : raw.type = "progress"
    · rw [ParseLine_progress raw hp] at h
      cases hd : raw.data with
      | none =>
        rw [hd] at h
        injection h with h2
        rw [← h2]
        exact Nat.zero_le 80
      | some d =>
        rw [hd] at h
        dsimp only at h
        cases hdm : d.message.isSome with
        | true =>
          rw [hdm] at h
          simp only [if_true] at h
          exact ParseOutcome.noConfusion h
        | false =>
          rw [hdm] at h
          simp only [Bool.false_eq_true, if_false] at h
          injection h with h2
          rw [← h2]
          by_cases hdt : d.type ≠ ""
          · rw [if_pos hdt]
            exact truncate_length_le _ 80
          · rw [if_neg hdt]
            exact Nat.zero_le 80
    by_cases hs : raw.type = "system"
    · rw [ParseLine_system raw hs] at h
      injection h with h2
      rw [← h2]
      exact Nat.zero_le 80
    · have hnk : raw.type ∉ knownTypes := by
        simp [knownTypes, ha, hu, hp, hs, hf]
      rw [ParseLine_unknown raw hnk] at h
      injection h with h2
      rw [← h2]
      exact Nat.zero_le 80

theorem C4_witness :
    ParseLine (some sampleSystemLine) = ParseOutcome.event sampleSystemEvent ∧
    sampleSystemEvent.detail.length ≤ 80 :=
  ⟨rfl, C4_detail_bound (some sampleSystemLine) sampleSystemEvent rfl⟩

/-- Claim C5: every event the Classifier returns has a category in the
closed set of nine categories and never the reserved category init; an
unknown top-level record type yields an event with category meta and the
literal type as the event name, rather than being dropped. -/
theorem C5_closed_categories (raw : RawLine) (ev : BabbleEvent) :
    (ParseLine (some raw) = ParseOutcome.event ev →
      ev.category ∈ specCategories ∧ ev.category ≠ "init") ∧
    (raw.type ∉ knownTypes →
      ParseLine (some raw) =
        ParseOutcome.event { initEvent raw with category := CategoryMeta, event := raw.type }) := by
  have hinit : ∀ c ∈ specCategories, c ≠ "init" := by decide
  refine ⟨?_, ParseLine_unknown raw⟩
  intro h
  have hmem : ev.category ∈ specCategories := by
    by_cases hf : raw.type = "file-history-snapshot"
    · rw [ParseLine_fhs raw hf] at h
      exact ParseOutcome.noConfusion h
    by_cases ha : raw.type = "assistant"
    · rw [ParseLine_assistant raw ha] at h
      injection h with h2
      rw [← h2]
      exact parseAssistant_category_mem _ _
    by_cases hu : raw.type = "user"
    · rw [ParseLine_user raw hu] at h
      injection h with h2
      rw [← h2, parseUser_shape]
      exact specUserOutcome_cat_mem _
    by_cases hp : raw.type = "progress"
    · rw [ParseLine_progress raw hp] at h
      cases hd : raw.data with
      | none =>
        rw [hd] at h
        injection h with h2
        rw [← h2]
        exact (by decide : CategoryMeta ∈ specCategories)
      | some d =>
        rw [hd] at h
        dsimp only at h
        cases hdm : d.message.isSome with
        | true =>
          rw [hdm] at h
          simp only [if_true] at h
          exact ParseOutcome.noConfusion h
        | false =>
          rw [hdm] at h
          simp only [Bool.false_eq_true, if_false] at h
          injection h with h2
          rw [← h2]
          exact (by decide : CategoryMeta ∈ specCategories)
    by_cases hs : raw.type = "system"
    · rw [ParseLine_system raw hs] at h
      injection h with h2
      rw [← h2]
      exact (by decide : CategoryMeta ∈ specCategories)
    · have hnk : raw.type ∉ knownTypes := by
        simp [knownTypes, ha, hu, hp, hs, hf]
      rw [ParseLine_unknown raw hnk] at h
      injection h with h2
      rw [← h2]
      exact (by decide : CategoryMeta ∈ specCategories)
  exact ⟨hmem, hinit _ hmem⟩

theorem C5_witness :
    sampleUnknownEvent.category ∈ specCategories ∧ sampleUnknownEvent.category ≠ "init" :=
  (C5_closed_categories sampleUnknownLine sampleUnknownEvent).1 rfl

/-- Claim C6: startTailing is a compare-and-insert into the registry — a
second request for a path with a live entry returns the state unchanged —
and an entry is removed only by that path's own tailer on exit, so in
every reachable state the live tailers for a path match its registry
entries and number at most one. -/
theorem C6_registry_dedup (s : RegState) (h : RegReach s) :
    (∀ p, s.live.count p = s.tailing.count p ∧ s.tailing.count p ≤ 1) ∧
    (∀ p, p ∈ s.tailing → startTailing s p = s) := by
  constructor
  · induction h with
    | init => intro p; simp
    | start s' q hr ih =>
      intro p
      unfold startTailing
      by_cases hmem : q ∈ s'.tailing
      · rw [if_pos hmem]; exact ih p
      · rw [if_neg hmem]
        have hq0 : s'.tailing.count q = 0 := by
          rw [List.count_eq_zero]
          exact hmem
        by_cases hpq : p = q
        · subst hpq
          simp only [List.count_cons_self]
          rw [(ih p).1, hq0]
          simp
        · simp only [List.count_cons_of_ne hpq]
          exact ih p
    | exit s' q hr hq ih =>
      intro p
      unfold tailExit
      by_cases hpq : p = q
      · subst hpq
        simp only [List.count_erase_self]
        refine ⟨by rw [(ih p).1], ?_⟩
        exact le_trans (Nat.sub_le _ _) (ih p).2
      · simp only [List.count_erase_of_ne hpq]
        exact ih p
  · intro p hp
    unfold startTailing
    rw [if_pos hp]

theorem C6_witness :
    (startTailing (startTailing ⟨[], []⟩ "a") "a").live.count "a" =
      (startTailing (startTailing ⟨[], []⟩ "a") "a").tailing.count "a" ∧
    (startTailing (startTailing ⟨[], []⟩ "a") "a").tailing.count "a" ≤ 1 :=
  (C6_registry_dedup _ (RegReach.start _ "a" (RegReach.start _ "a" RegReach.init))).1 "a"

theorem feed_append (carry a b : List Char) :
    feed carry (a ++ b) =
      ((feed carry a).1 ++ (feed (feed carry a).2 b).1, (feed (feed carry a).2 b).2) := by
  induction a generalizing carry with
  | nil => simp [feed]
  | cons c cs ih =>
    by_cases hc : c = '\n'
    · subst hc
      simp [feed, ih]
    · simp [feed, hc, ih]

/-- Claim C7: the Tailer's read loop delivers exactly the lines of the
concatenated data no matter how the bytes are split across write
notifications: a partial line left at EOF is carried over and prepended
to the next read, so a line split across two writes is delivered once,
whole. -/
theorem C7_no_partial_lines (carry : List Char) (chunks : List (List Char)) :
    tailRun carry chunks = feed carry chunks.flatten := by
  induction chunks generalizing carry with
  | nil => simp [tailRun, feed]
  | cons ch chs ih => simp [tailRun, List.flatten, feed_append, ih]

/-- Claim C8 as stated is false on the code: the created directory
/r/r/s (watch root /r, basename not subagents) is treated as a new
project directory although it does not sit directly under the watch root
— its parent is /r/r, whose basename merely coincides with the root's
basename. -/
theorem C8_counterexample :
    fpBase "/r/r/s" ≠ "subagents" ∧
    dirCreateRole "/r" "/r/r/s" = DirRole.projectDir ∧
    ¬ directlyUnder "/r" "/r/r/s" := by
  refine ⟨by decide, by decide, ?_⟩
  intro hcontra
  unfold directlyUnder at hcontra
  exact absurd hcontra (by decide)

/-- Claim C8 amended: for a created directory whose basename is not
subagents, the Watcher treats it as a new project directory if and only
if the basename of its parent directory equals the basename of the watch
root; in particular (for a clean watch root path) every directory sitting
directly under the watch root is treated as a project directory, and
every other such directory is treated as a potential session-id
directory. -/
theorem C8_dir_role (watchPath p : String) (hsub : fpBase p ≠ "subagents") :
    (dirCreateRole watchPath p = DirRole.projectDir ↔
      fpBase (fpDir p) = watchDirBase watchPath) ∧
    (fpClean watchPath = watchPath → directlyUnder watchPath p →
      dirCreateRole watchPath p = DirRole.projectDir) ∧
    (fpBase (fpDir p) ≠ watchDirBase watchPath →
      dirCreateRole watchPath p = DirRole.sessionDir) := by
  unfold dirCreateRole
  rw [if_neg hsub]
  refine ⟨?_, ?_, ?_⟩
  · by_cases hb : fpBase (fpDir p) = watchDirBase watchPath
    · rw [if_pos hb]
      exact ⟨fun _ => hb, fun _ => rfl⟩
    · rw [if_neg hb]
      exact ⟨fun hcon => DirRole.noConfusion hcon, fun hbb => absurd hbb hb⟩
  · intro hclean hunder
    have hb : fpBase (fpDir p) = watchDirBase watchPath := by
      unfold directlyUnder at hunder
      unfold watchDirBase
      rw [hunder, hclean]
    rw [if_pos hb]
  · intro hb
    rw [if_neg hb]

theorem C8_witness :
    dirCreateRole "/r" "/r/proj" = DirRole.projectDir :=
  (C8_dir_role "/r" "/r/proj" (by decide)).2.1 (by decide) rfl

/-- Claim C9: one hub broadcast attempts a single write to every
subscriber; subscribers whose write fails are closed and removed, the
rest remain and received the frame; an event whose serialization fails is
dropped with no write attempted. -/
theorem C9_hub_broadcast (clients : List Subscriber) (frame : String) :
    (broadcast clients).attempted = clients ∧
    (broadcast clients).remaining = clients.filter (fun s => s.writeOk) ∧
    (broadcast clients).delivered = clients.filter (fun s => s.writeOk) ∧
    (broadcast clients).closed = clients.filter (fun s => !s.writeOk) ∧
    hubRunStep clients (some frame) = broadcast clients ∧
    hubRunStep clients none = ⟨clients, [], [], []⟩ := by
  refine ⟨?_, ?_, ?_, ?_, rfl, rfl⟩ <;>
    induction clients with
    | nil => rfl
    | cons c rest ih =>
      by_cases hc : c.writeOk <;>
        simp [broadcast, List.filter_cons, hc, ih]

/-- Claim C10: a line that is empty after stripping trailing carriage
returns and newlines produces no event and no error log; the Tailer
skips it before the Classifier is invoked. -/
theorem C10_blank_lines (decode : String → Option RawLine) (isSubagent : Bool)
    (line : String) (h : trimRightCRLF line = "") :
    tailProcessLine decode isSubagent line = LineOutcome.silent := by
  unfold tailProcessLine
  dsimp only
  rw [h]
  rfl

theorem C10_witness :
    trimRightCRLF "\r\n" = "" ∧
    tailProcessLine (fun _ => none) false "\r\n" = LineOutcome.silent :=
  ⟨rfl, C10_blank_lines (fun _ => none) false "\r\n" rfl⟩

end Babble
